import Mathlib

/-!
Verification of the training core of `cleanrl/sdm_rl.py` (a DQN variant with
optional DSOM / SDM associative-memory layers) against its specification.

The Python source is shallowly embedded here:
* exact rational / real arithmetic stands in for floating point;
* arrays become functions out of `Fin`-indexed types or `List`s;
* the external autodiff / optimizer machinery (treated as an opaque
  collaborator by the spec) is abstracted by function parameters;
* Python exceptions become `Except` values.

Each embedded definition carries a comment pointing to the source lines it
was traced from.
-/

namespace SdmRL

/-! ## Epsilon schedule (src/cleanrl/sdm_rl.py lines 361-363) -/

/-- Traced from `linear_schedule` (lines 361-363):
`slope = (end_e - start_e) / duration; return max(slope * t + start_e, end_e)`. -/
def linear_schedule (start_e end_e duration t : ℚ) : ℚ :=
  let slope := (end_e - start_e) / duration
  max (slope * t + start_e) end_e

/-! ## SDM top-k threshold (src/cleanrl/sdm_rl.py line 327) -/

/-- Traced from `SDM.sdm_layer` line 327:
`k_abs = math.ceil(self.k * args.hidden_size) + 1`. -/
def sdm_k_abs (k : ℚ) (hidden_size : ℕ) : ℤ :=
  ⌈k * (hidden_size : ℚ)⌉ + 1

/-! ## SDM sparsification (src/cleanrl/sdm_rl.py lines 327-330)

One row (one batch sample) of the activation matrix is modelled as a
`List ℚ`.  `jnp.sort` sorts ascending; the Python index `[-k_abs]` is
`length - k_abs` (JAX clamps an out-of-range index, which natural-number
subtraction reproduces for `k_abs > length`). -/

/-- Traced from `SDM.sdm_layer` lines 328-330, applied to one sample:
`sorted = jnp.sort(activations); min_activation = sorted[-k_abs];
activations = jnp.maximum(activations - min_activation, 0)`. -/
def sdm_sparsify (kAbs : ℕ) (acts : List ℚ) : List ℚ :=
  let sorted := acts.insertionSort (· ≤ ·)
  let min_activation := sorted.getD (acts.length - kAbs) 0
  acts.map (fun a => max (a - min_activation) 0)

/-! ## Target-network synchronization (src/cleanrl/sdm_rl.py lines 547-551)

A parameter tensor is modelled as `Fin n → ℚ`; `optax.incremental_update`
maps the same affine combination over every leaf of the parameter tree. -/

/-- The live/target parameter pair held by `TrainState` (lines 357-358). -/
structure QState (P : Type) where
  params : P
  target_params : P

/-- Traced from `optax.incremental_update(new, old, step_size)` as used at
line 550: elementwise `step_size * new + (1 - step_size) * old`. -/
def incremental_update {n : ℕ} (tau : ℚ) (new_t old_t : Fin n → ℚ) : Fin n → ℚ :=
  fun i => tau * new_t i + (1 - tau) * old_t i

/-- Guard of the target-sync block, lines 519 and 548:
`global_step > learning_starts` and `global_step % target_network_frequency == 0`. -/
def target_sync_condition (learning_starts target_network_frequency global_step : ℕ) : Prop :=
  learning_starts < global_step ∧ global_step % target_network_frequency = 0

instance (a b c : ℕ) : Decidable (target_sync_condition a b c) :=
  inferInstanceAs (Decidable (a < c ∧ c % b = 0))

/-- Traced from lines 548-551: on a sync step the state is replaced by
`q_state.replace(target_params=optax.incremental_update(params, target_params, tau))`. -/
def target_sync {n : ℕ} (tau : ℚ) (qs : QState (Fin n → ℚ)) : QState (Fin n → ℚ) :=
  ⟨qs.params, incremental_update tau qs.params qs.target_params⟩

/-- The target-sync part of one loop iteration (lines 519, 547-551): the
state is replaced on a sync step and left untouched otherwise. -/
def loop_target_sync {n : ℕ} (learning_starts target_network_frequency global_step : ℕ)
    (tau : ℚ) (qs : QState (Fin n → ℚ)) : QState (Fin n → ℚ) :=
  if target_sync_condition learning_starts target_network_frequency global_step then
    target_sync tau qs
  else qs

/-! ## The gradient update step (src/cleanrl/sdm_rl.py lines 446-468)

The Q-network application, the gradient computation and the Adam step are
opaque collaborators (spec section 1) and are abstracted as function
parameters `applyFn`, `gradFn`, `applyGrads`.  The architecture-specific
hooks (DSOM codebook pre-update at lines 448-449, SDM renormalization
post-update at lines 463-466) are abstracted as `preU` / `postU`; both are
the identity for the baseline architecture. -/

/-- Maximum of the action axis, `jnp.max(q, axis=-1)` (line 452). -/
def vmax {a : ℕ} (f : Fin (a + 1) → ℚ) : ℚ :=
  Finset.univ.sup' ⟨0, Finset.mem_univ 0⟩ f

/-- Traced from the body of `update` (lines 446-468).  Returns
`(loss_value, q_pred, new_q_state)` exactly as the source does. -/
def update {P O G : Type} {B a : ℕ} (gamma : ℚ)
    (applyFn : P → O → Fin B → Fin (a + 1) → ℚ)
    (gradFn : (P → ℚ) → P → G) (applyGrads : P → G → P)
    (preU postU : P → P)
    (qs : QState P) (observations next_observations : O)
    (actions : Fin B → Fin (a + 1)) (rewards dones : Fin B → ℚ) :
    ℚ × (Fin B → ℚ) × QState P :=
  -- lines 448-449: DSOM codebook update mutates the live params in place
  let params := preU qs.params
  -- lines 451-452
  let q_next_target : Fin B → ℚ :=
    fun b => vmax (applyFn qs.target_params next_observations b)
  -- line 453
  let next_q_value : Fin B → ℚ :=
    fun b => rewards b + (1 - dones b) * gamma * q_next_target b
  -- lines 455-458
  let mse_loss : P → ℚ := fun p =>
    (∑ b, (applyFn p observations b (actions b) - next_q_value b) ^ 2) / (B : ℚ)
  let q_pred : Fin B → ℚ := fun b => applyFn params observations b (actions b)
  -- lines 460-461
  let grads := gradFn mse_loss params
  let stepped := applyGrads params grads
  -- lines 463-466: SDM renormalization of the just-updated live params
  let new_params := postU stepped
  (mse_loss params, q_pred, ⟨new_params, qs.target_params⟩)

/-- The TD target exactly as the spec states it:
`y = r + (1 - done) * gamma * max_a Q(target_params, next_obs)`. -/
def tdTarget (gamma r done qmax : ℚ) : ℚ :=
  r + (1 - done) * gamma * qmax

/-- Mean squared error over the batch, as the spec states the loss. -/
def mseMean {B : ℕ} (pred target : Fin B → ℚ) : ℚ :=
  (∑ b, (pred b - target b) ^ 2) / (B : ℚ)

/-! ## Configuration dispatch (src/cleanrl/sdm_rl.py lines 413-420, 478-483
and 266-271)

Python exceptions are modelled as `Except PyErr`; an unassigned local
variable that is later read (the architecture branch has no `else`, lines
413-420, so `q_network` stays unbound for any other tag and line 423
raises) is modelled by `Option` feeding into the consuming step. -/

/-- The error outcomes the script can raise on bad configuration. -/
inductive PyErr : Type
  | exception : PyErr
  | invalidUpdateMode : PyErr
  | unboundLocal : PyErr
deriving DecidableEq

/-- The three supported architectures (lines 413-420). -/
inductive Arch : Type
  | baseline : Arch
  | dsom : Arch
  | sdm : Arch
deriving DecidableEq

/-- Traced from lines 413-420: the `if/elif` chain assigns `q_network` for
the three known tags and has no `else`, leaving it unassigned otherwise. -/
def selectArchitecture (tag : String) : Option Arch :=
  if tag = "BASELINE" then some Arch.baseline
  else if tag = "DSOM" then some Arch.dsom
  else if tag = "SDM" then some Arch.sdm
  else none

/-- Traced from lines 422-427: `TrainState.create(apply_fn=q_network.apply, ...)`
reads `q_network`; for an unsupported tag the local was never assigned and
Python raises `UnboundLocalError` there, before anything else runs. -/
def createTrainState (q_network : Option Arch) : Except PyErr Arch :=
  match q_network with
  | some a => Except.ok a
  | none => Except.error PyErr.unboundLocal

/-- Traced from lines 478-483: the scheduler dispatch computes the epsilon
for the two known tags and executes `raise Exception` otherwise. -/
def selectEpsilon (tag : String) (linear_eps exponential_eps : ℚ) : Except PyErr ℚ :=
  if tag = "LINEAR" then Except.ok linear_eps
  else if tag = "EXPONENTIAL" then Except.ok exponential_eps
  else Except.error PyErr.exception

/-- Traced from lines 266-271: the batch-collapse of the DSOM delta uses the
mean for `'avg'`, the sum for `'sum'`, and executes
`raise Exception('Invalid update mode')` for any other mode string. -/
def dsomCollapse {D : Type} (mode : String) (avg_delta sum_delta : D) : Except PyErr D :=
  if mode = "avg" then Except.ok avg_delta
  else if mode = "sum" then Except.ok sum_delta
  else Except.error PyErr.invalidUpdateMode

/-! ## SDM renormalization update (src/cleanrl/sdm_rl.py lines 335-342)

Real-valued matrices are `Fin m → Fin n → ℝ`.  `jnp.linalg.norm(k, axis=0)`
is the per-column L2 norm.  Division by a zero column norm follows Lean's
`x / 0 = 0` convention, matching the spec's reading of the degenerate case
(an all-zero column stays all-zero). -/

noncomputable section

/-- Column L2 norm of a matrix, `jnp.linalg.norm(sdm_keys, axis=0)`. -/
def colNorm {m n : ℕ} (K : Fin m → Fin n → ℝ) (j : Fin n) : ℝ :=
  Real.sqrt (∑ i, (K i j) ^ 2)

/-- Componentwise `jnp.maximum(A, 0)` (lines 338 and 340). -/
def clipPos {m n : ℕ} (A : Fin m → Fin n → ℝ) : Fin m → Fin n → ℝ :=
  fun i j => max (A i j) 0

/-- Traced from `SDM.sdm_update` (lines 335-342):
`sdm_keys = jnp.maximum(sdm_keys, 0); sdm_keys = sdm_keys / jnp.linalg.norm(sdm_keys, axis=0);
sdm_values = jnp.maximum(sdm_values, 0); return (sdm_keys, sdm_values)`. -/
def sdm_update {m n p q : ℕ} (sdm_keys : Fin m → Fin n → ℝ)
    (sdm_values : Fin p → Fin q → ℝ) :
    (Fin m → Fin n → ℝ) × (Fin p → Fin q → ℝ) :=
  (fun i j => clipPos sdm_keys i j / colNorm (clipPos sdm_keys) j,
   clipPos sdm_values)

/-! ## DSOM update (src/cleanrl/sdm_rl.py lines 220-279)

The codebook has `n + 1` prototypes (a nonempty codebook, as `jnp.argmin`
and `jnp.max` over it require), each a vector in `Fin d → ℝ`; topological
addresses live in `Fin 2 → ℝ`; a batch is `Fin B → Fin d → ℝ`. -/

/-- Euclidean distance, `jnp.linalg.norm(u - v)` along the last axis. -/
def euclid {d : ℕ} (u v : Fin d → ℝ) : ℝ :=
  Real.sqrt (∑ t, (u t - v t) ^ 2)

/-- The `jnp.argmin` of a row: the first index attaining the minimum. -/
def argminFin {n : ℕ} (f : Fin (n + 1) → ℝ) : Fin (n + 1) :=
  (List.finRange (n + 1)).foldl (fun best i => if f i < f best then i else best) 0

/-- The `jnp.max(jnp.ravel(x))` reduction used on the pairwise
prototype-distance matrix (lines 226-229): the maximum entry of a nonempty
array, via a fold. -/
def jnpMaxList (l : List ℝ) : ℝ :=
  l.foldl max (l.headD 0)

/-- Largest pairwise prototype-to-prototype distance (lines 226-229). -/
def currentMaxDist {n d : ℕ} (cb_vecs : Fin (n + 1) → Fin d → ℝ) : ℝ :=
  jnpMaxList ((List.finRange (n + 1)).flatMap
    (fun i => (List.finRange (n + 1)).map (fun j => euclid (cb_vecs i) (cb_vecs j))))

/-- Componentwise `jnp.clip(x, -1, 1)` (line 274): `minimum(maximum(x, -1), 1)`. -/
def clip1 (x : ℝ) : ℝ := min (max x (-1)) 1

/-- Traced from `DSOM.dsom_update` (lines 220-279), for the two supported
collapse modes (`useSum = false` is `'avg'`, `true` is `'sum'`; the string
dispatch itself is `dsomCollapse`).  Returns the new codebook together with
the updated `max_dist` state (line 230).

Careful shape tracing of lines 254-255: at line 254 `cb_vecs` is the
expanded `(1, N, D)` array (line 227), so `cb_vecs[winner_idx, :]` gathers
along an axis of size 1 with indices up to `N - 1`; JAX clamps
out-of-range gather indices, so every batch entry receives the whole
codebook and `winner_cb_vecs[b, i] = prototype_i`.  The denominator at
line 255 therefore uses the distance from `obs_b` to prototype `i`, not to
the winner of `b`.

Line 277 `cb_vecs.squeeze() + delta_w` is modelled as elementwise addition
on the `(N, D)` codebook.  This is the source behavior exactly when
`obs_dim ≥ 2`: `jnp.squeeze` then removes only the size-1 axis 0 of the
`(1, N, D)` array.  For `obs_dim = 1` the squeeze would also collapse the
last axis and the addition would broadcast to `(N, N)`, so every concrete
evaluation of this embedding below uses `obs_dim = 2`. -/
def dsom_update {n d B : ℕ} (useSum : Bool) (elasticity lr : ℝ)
    (addresses : Fin (n + 1) → Fin 2 → ℝ)
    (cb_vecs : Fin (n + 1) → Fin d → ℝ)
    (obs : Fin B → Fin d → ℝ) (max_dist : ℝ) :
    (Fin (n + 1) → Fin d → ℝ) × ℝ :=
  -- lines 226-230
  let md := max (currentMaxDist cb_vecs) max_dist
  -- lines 233-238
  let diff := fun (b : Fin B) (i : Fin (n + 1)) (t : Fin d) => obs b t - cb_vecs i t
  let dist := fun (b : Fin B) (i : Fin (n + 1)) => euclid (obs b) (cb_vecs i)
  -- line 242
  let winner := fun b => argminFin (dist b)
  -- line 245
  let dist_normed := fun b i => dist b i / md
  -- lines 248-251
  let numerators := fun b i => ∑ t, (addresses i t - addresses (winner b) t) ^ 2
  -- lines 254-255 (see the doc comment: the winner index is clamped away)
  let denominators := fun b (i : Fin (n + 1)) =>
    elasticity ^ 2 * (euclid (obs b) (cb_vecs i) / md) ^ 2
  -- line 258
  let h := fun b i => Real.exp (-numerators b i / denominators b i)
  -- line 263
  let delta_w_batch := fun b i t => lr * dist_normed b i * h b i * diff b i t
  -- lines 266-269
  let delta_w := fun i t =>
    if useSum then ∑ b, delta_w_batch b i t
    else (∑ b, delta_w_batch b i t) / (B : ℝ)
  -- line 274
  let delta_w_clipped := fun i t => clip1 (delta_w i t)
  -- line 277
  (fun i t => cb_vecs i t + delta_w_clipped i t, md)

/-- Modelled from the claim's words, for comparison with `dsom_update`: the
identical computation except that the neighborhood denominator uses the
distance from `obs_b` to the *winner's* prototype,
`elasticity^2 * (euclid(obs_b, prototype_winner(b)) / max_dist)^2`. -/
def dsom_update_claim {n d B : ℕ} (useSum : Bool) (elasticity lr : ℝ)
    (addresses : Fin (n + 1) → Fin 2 → ℝ)
    (cb_vecs : Fin (n + 1) → Fin d → ℝ)
    (obs : Fin B → Fin d → ℝ) (max_dist : ℝ) :
    (Fin (n + 1) → Fin d → ℝ) × ℝ :=
  let md := max (currentMaxDist cb_vecs) max_dist
  let diff := fun (b : Fin B) (i : Fin (n + 1)) (t : Fin d) => obs b t - cb_vecs i t
  let dist := fun (b : Fin B) (i : Fin (n + 1)) => euclid (obs b) (cb_vecs i)
  let winner := fun b => argminFin (dist b)
  let dist_normed := fun b i => dist b i / md
  let numerators := fun b i => ∑ t, (addresses i t - addresses (winner b) t) ^ 2
  let denominators := fun b (_i : Fin (n + 1)) =>
    elasticity ^ 2 * (euclid (obs b) (cb_vecs (winner b)) / md) ^ 2
  let h := fun b i => Real.exp (-numerators b i / denominators b i)
  let delta_w_batch := fun b i t => lr * dist_normed b i * h b i * diff b i t
  let delta_w := fun i t =>
    if useSum then ∑ b, delta_w_batch b i t
    else (∑ b, delta_w_batch b i t) / (B : ℝ)
  let delta_w_clipped := fun i t => clip1 (delta_w i t)
  (fun i t => cb_vecs i t + delta_w_clipped i t, md)

/-- One DSOM training-step state transition on `(codebook, max_dist)`, as
invoked at line 449 with the default mode `'avg'`. -/
def dsomStep {n d B : ℕ} (elasticity lr : ℝ)
    (addresses : Fin (n + 1) → Fin 2 → ℝ)
    (st : (Fin (n + 1) → Fin d → ℝ) × ℝ) (obs : Fin B → Fin d → ℝ) :
    (Fin (n + 1) → Fin d → ℝ) × ℝ :=
  dsom_update false elasticity lr addresses st.1 obs st.2

end

/-! ## Claims C2 and C9: SDM renormalization invariants -/

lemma clipPos_nonneg {m n : ℕ} (A : Fin m → Fin n → ℝ) (i : Fin m) (j : Fin n) :
    0 ≤ clipPos A i j :=
  le_max_right _ _

lemma colNorm_nonneg {m n : ℕ} (A : Fin m → Fin n → ℝ) (j : Fin n) :
    0 ≤ colNorm A j :=
  Real.sqrt_nonneg _

/-- Normalizing a column of nonzero norm yields a column of norm one. -/
lemma colNorm_normalize {m n : ℕ} (A : Fin m → Fin n → ℝ) (j : Fin n)
    (h : colNorm A j ≠ 0) :
    colNorm (fun i j' => A i j' / colNorm A j') j = 1 := by
  unfold colNorm at *
  have hnn : 0 ≤ ∑ i, (A i j) ^ 2 := Finset.sum_nonneg fun i _ => sq_nonneg _
  have hsum_ne : (∑ i, (A i j) ^ 2) ≠ 0 := by
    intro hz
    exact h (by rw [hz, Real.sqrt_zero])
  have hstep : ∑ i, (A i j / Real.sqrt (∑ i', (A i' j) ^ 2)) ^ 2 = 1 := by
    simp only [div_pow, ← Finset.sum_div]
    rw [Real.sq_sqrt hnn]
    exact div_self hsum_ne
  rw [hstep, Real.sqrt_one]

/-- The clipped key matrix has a column of nonzero norm as soon as the raw
column has one positive entry. -/
lemma colNorm_clipPos_ne_zero {m n : ℕ} (A : Fin m → Fin n → ℝ) (j : Fin n)
    (h : ∃ i, 0 < A i j) : colNorm (clipPos A) j ≠ 0 := by
  obtain ⟨i, hi⟩ := h
  have hpos : 0 < clipPos A i j := lt_of_lt_of_le hi (le_max_left _ _)
  have hsum : 0 < ∑ i', (clipPos A i' j) ^ 2 :=
    Finset.sum_pos' (fun i' _ => sq_nonneg _)
      ⟨i, Finset.mem_univ i, pow_pos hpos 2⟩
  exact ne_of_gt (Real.sqrt_pos.mpr hsum)

/-- C2: after every SDM renormalization update the key matrix is
componentwise non-negative and every column has L2 norm exactly 1 or is
all-zero (the degenerate case), and every value entry is non-negative; this
holds for every input key and value matrices. -/
theorem claim_C2_sdm_update_invariants {m n p q : ℕ}
    (sdm_keys : Fin m → Fin n → ℝ) (sdm_values : Fin p → Fin q → ℝ) :
    (∀ i j, 0 ≤ (sdm_update sdm_keys sdm_values).1 i j)
    ∧ (∀ j, colNorm (sdm_update sdm_keys sdm_values).1 j = 1
        ∨ ∀ i, (sdm_update sdm_keys sdm_values).1 i j = 0)
    ∧ (∀ i j, 0 ≤ (sdm_update sdm_keys sdm_values).2 i j) := by
  refine ⟨?_, ?_, ?_⟩
  · intro i j
    exact div_nonneg (clipPos_nonneg _ i j) (colNorm_nonneg _ j)
  · intro j
    by_cases hz : colNorm (clipPos sdm_keys) j = 0
    · right
      intro i
      show clipPos sdm_keys i j / colNorm (clipPos sdm_keys) j = 0
      rw [hz, div_zero]
    · left
      exact colNorm_normalize (clipPos sdm_keys) j hz
  · intro i j
    exact clipPos_nonneg _ i j

/-- C9: the SDM renormalization update is idempotent on every key/value pair
whose key columns each contain a positive entry (so that no column clips to
the all-zero degenerate case): applying `sdm_update` to its own output
changes nothing. -/
theorem claim_C9_sdm_update_idempotent {m n p q : ℕ}
    (sdm_keys : Fin m → Fin n → ℝ) (sdm_values : Fin p → Fin q → ℝ)
    (hcols : ∀ j, ∃ i, 0 < sdm_keys i j) :
    sdm_update (sdm_update sdm_keys sdm_values).1 (sdm_update sdm_keys sdm_values).2
      = sdm_update sdm_keys sdm_values := by
  set K2 : Fin m → Fin n → ℝ :=
    fun i j => clipPos sdm_keys i j / colNorm (clipPos sdm_keys) j with hK2
  have hfst : (sdm_update sdm_keys sdm_values).1 = K2 := rfl
  have hK2nn : ∀ i j, 0 ≤ K2 i j :=
    fun i j => div_nonneg (clipPos_nonneg _ i j) (colNorm_nonneg _ j)
  have hclipK2 : clipPos K2 = K2 := by
    funext i j
    exact max_eq_left (hK2nn i j)
  have hnorm : ∀ j, colNorm K2 j = 1 := by
    intro j
    exact colNorm_normalize (clipPos sdm_keys) j (colNorm_clipPos_ne_zero sdm_keys j (hcols j))
  have hvals : ∀ i j, 0 ≤ (sdm_update sdm_keys sdm_values).2 i j :=
    fun i j => clipPos_nonneg _ i j
  unfold sdm_update
  refine Prod.ext ?_ ?_
  · funext i j
    show clipPos K2 i j / colNorm (clipPos K2) j = K2 i j
    rw [hclipK2, hnorm j, div_one]
  · funext i j
    show max (clipPos sdm_values i j) 0 = clipPos sdm_values i j
    exact max_eq_left (clipPos_nonneg _ i j)

/-- Witness for C9 on the concrete `1 × 1` key matrix `[[2]]` (and value
matrix `[[-1]]`), whose single column has the positive entry `2`. -/
theorem claim_C9_sdm_update_idempotent_witness :
    (0 : ℝ) < 2
    ∧ sdm_update
        (sdm_update (fun (_ : Fin 1) (_ : Fin 1) => (2 : ℝ))
          (fun (_ : Fin 1) (_ : Fin 1) => (-1 : ℝ))).1
        (sdm_update (fun (_ : Fin 1) (_ : Fin 1) => (2 : ℝ))
          (fun (_ : Fin 1) (_ : Fin 1) => (-1 : ℝ))).2
      = sdm_update (fun (_ : Fin 1) (_ : Fin 1) => (2 : ℝ))
          (fun (_ : Fin 1) (_ : Fin 1) => (-1 : ℝ)) :=
  ⟨by norm_num,
   claim_C9_sdm_update_idempotent
     (fun (_ : Fin 1) (_ : Fin 1) => (2 : ℝ))
     (fun (_ : Fin 1) (_ : Fin 1) => (-1 : ℝ))
     (fun j => ⟨0, by norm_num⟩)⟩

/-! ## Claim C3: the DSOM neighborhood denominator

The code's denominator (lines 254-255) uses the distance from `obs_b` to
prototype `i` (the winner gather is clamped away, see `dsom_update`), while
the claim's formula uses the distance to the winner's prototype.  The two
are compared on a concrete input with `obs_dim = 2`, where the embedding of
line 277 is exact (see the `dsom_update` doc comment). -/

noncomputable section

/-- Unfolded left component of `dsom_update` in `'avg'` mode. -/
lemma dsom_update_avg_fst {n d B : ℕ} (elasticity lr : ℝ)
    (addresses : Fin (n + 1) → Fin 2 → ℝ) (cb_vecs : Fin (n + 1) → Fin d → ℝ)
    (obs : Fin B → Fin d → ℝ) (max_dist : ℝ) (i : Fin (n + 1)) (t : Fin d) :
    (dsom_update false elasticity lr addresses cb_vecs obs max_dist).1 i t
      = cb_vecs i t + clip1 ((∑ b,
          lr * (euclid (obs b) (cb_vecs i) / max (currentMaxDist cb_vecs) max_dist)
            * Real.exp
              (-(∑ u, (addresses i u
                  - addresses (argminFin (fun i' => euclid (obs b) (cb_vecs i'))) u) ^ 2)
                / (elasticity ^ 2
                  * (euclid (obs b) (cb_vecs i) / max (currentMaxDist cb_vecs) max_dist) ^ 2))
            * (obs b t - cb_vecs i t)) / (B : ℝ)) :=
  rfl

/-- Unfolded left component of `dsom_update_claim` in `'avg'` mode. -/
lemma dsom_update_claim_avg_fst {n d B : ℕ} (elasticity lr : ℝ)
    (addresses : Fin (n + 1) → Fin 2 → ℝ) (cb_vecs : Fin (n + 1) → Fin d → ℝ)
    (obs : Fin B → Fin d → ℝ) (max_dist : ℝ) (i : Fin (n + 1)) (t : Fin d) :
    (dsom_update_claim false elasticity lr addresses cb_vecs obs max_dist).1 i t
      = cb_vecs i t + clip1 ((∑ b,
          lr * (euclid (obs b) (cb_vecs i) / max (currentMaxDist cb_vecs) max_dist)
            * Real.exp
              (-(∑ u, (addresses i u
                  - addresses (argminFin (fun i' => euclid (obs b) (cb_vecs i'))) u) ^ 2)
                / (elasticity ^ 2
                  * (euclid (obs b)
                      (cb_vecs (argminFin (fun i' => euclid (obs b) (cb_vecs i'))))
                    / max (currentMaxDist cb_vecs) max_dist) ^ 2))
            * (obs b t - cb_vecs i t)) / (B : ℝ)) :=
  rfl

/-- Concrete codebook for the C3 comparison: two 2-dimensional prototypes
at positions (0,0) and (4,0).  With `obs_dim = 2`, `jnp.squeeze` at line
277 removes only the batch-expansion axis and the embedding is exact. -/
def C3cb : Fin 2 → Fin 2 → ℝ := ![![0, 0], ![4, 0]]

/-- Concrete topological addresses: grid points (0,0) and (1,0). -/
def C3adr : Fin 2 → Fin 2 → ℝ := ![![0, 0], ![1, 0]]

/-- Concrete batch: the single observation (1,0). -/
def C3obs : Fin 1 → Fin 2 → ℝ := ![![1, 0]]

lemma C3_euclid_cb_00 : euclid (C3cb 0) (C3cb 0) = 0 := by
  unfold euclid
  rw [Fin.sum_univ_two]
  simp [C3cb]

lemma C3_euclid_cb_01 : euclid (C3cb 0) (C3cb 1) = 4 := by
  unfold euclid
  rw [Fin.sum_univ_two]
  simp only [C3cb, Matrix.cons_val_zero, Matrix.cons_val_one, Matrix.head_cons]
  rw [show ((0 : ℝ) - 4) ^ 2 + ((0 : ℝ) - 0) ^ 2 = 4 ^ 2 by norm_num]
  exact Real.sqrt_sq (by norm_num)

lemma C3_euclid_cb_10 : euclid (C3cb 1) (C3cb 0) = 4 := by
  unfold euclid
  rw [Fin.sum_univ_two]
  simp only [C3cb, Matrix.cons_val_zero, Matrix.cons_val_one, Matrix.head_cons]
  rw [show ((4 : ℝ) - 0) ^ 2 + ((0 : ℝ) - 0) ^ 2 = 4 ^ 2 by norm_num]
  exact Real.sqrt_sq (by norm_num)

lemma C3_euclid_cb_11 : euclid (C3cb 1) (C3cb 1) = 0 := by
  unfold euclid
  rw [Fin.sum_univ_two]
  simp [C3cb]

lemma C3_dist_0 : euclid (C3obs 0) (C3cb 0) = 1 := by
  unfold euclid
  rw [Fin.sum_univ_two]
  simp only [C3obs, C3cb, Matrix.cons_val_zero, Matrix.cons_val_one, Matrix.head_cons]
  rw [show ((1 : ℝ) - 0) ^ 2 + ((0 : ℝ) - 0) ^ 2 = 1 ^ 2 by norm_num]
  exact Real.sqrt_sq (by norm_num)

lemma C3_dist_1 : euclid (C3obs 0) (C3cb 1) = 3 := by
  unfold euclid
  rw [Fin.sum_univ_two]
  simp only [C3obs, C3cb, Matrix.cons_val_zero, Matrix.cons_val_one, Matrix.head_cons]
  rw [show ((1 : ℝ) - 4) ^ 2 + ((0 : ℝ) - 0) ^ 2 = 3 ^ 2 by norm_num]
  exact Real.sqrt_sq (by norm_num)

lemma C3_finRange_two : List.finRange 2 = [0, 1] := by decide

lemma C3_maxdist : currentMaxDist C3cb = 4 := by
  unfold currentMaxDist jnpMaxList
  rw [C3_finRange_two]
  simp only [List.flatMap_cons, List.flatMap_nil, List.map_cons, List.map_nil,
    List.append_nil, List.cons_append, List.nil_append,
    C3_euclid_cb_00, C3_euclid_cb_01, C3_euclid_cb_10, C3_euclid_cb_11,
    List.headD_cons, List.foldl_cons, List.foldl_nil]
  norm_num

lemma C3_winner : argminFin (fun i' => euclid (C3obs 0) (C3cb i')) = 0 := by
  unfold argminFin
  rw [C3_finRange_two]
  simp only [List.foldl_cons, List.foldl_nil, ite_self, C3_dist_0, C3_dist_1]
  norm_num

lemma C3_num : (∑ u : Fin 2, (C3adr 1 u - C3adr 0 u) ^ 2) = 1 := by
  rw [Fin.sum_univ_two]
  simp only [C3adr, Matrix.cons_val_zero, Matrix.cons_val_one, Matrix.head_cons]
  norm_num

lemma clip1_eq_self {x : ℝ} (h1 : -1 ≤ x) (h2 : x ≤ 1) : clip1 x = x := by
  unfold clip1
  rw [max_eq_left h1, min_eq_left h2]

lemma C3_exp_le_one {y : ℝ} (hy : y ≤ 0) : Real.exp y ≤ 1 := by
  have h := Real.exp_le_exp.mpr hy
  rwa [Real.exp_zero] at h

/-- Value of the code's update at the concrete input, at component (1, 0). -/
lemma C3_code_eval :
    (dsom_update false 4 (1/9) C3adr C3cb C3obs 0).1 1 0
      = 4 - Real.exp (-(1/9)) / 4 := by
  rw [dsom_update_avg_fst, Fin.sum_univ_one, C3_winner, C3_maxdist, C3_dist_1, C3_num]
  simp only [C3obs, C3cb, Matrix.cons_val_zero, Matrix.cons_val_one, Matrix.head_cons,
    Nat.cast_one]
  simp only [show max (4 : ℝ) 0 = 4 from max_eq_left (by norm_num)]
  rw [show (-1 : ℝ) / (4 ^ 2 * (3 / 4) ^ 2) = -(1/9) from by norm_num]
  have hE0 : (0 : ℝ) < Real.exp (-(1/9)) := Real.exp_pos _
  have hE1 : Real.exp (-(1/9)) ≤ 1 := C3_exp_le_one (by norm_num)
  have hX : 1/9 * ((3 : ℝ)/4) * Real.exp (-(1/9)) * (1 - 4) / 1
      = -(Real.exp (-(1/9)) / 4) := by ring
  rw [hX, clip1_eq_self (by linarith) (by linarith)]
  ring

/-- Value of the claim's formula at the concrete input, at component (1, 0). -/
lemma C3_claim_eval :
    (dsom_update_claim false 4 (1/9) C3adr C3cb C3obs 0).1 1 0
      = 4 - Real.exp (-1) / 4 := by
  rw [dsom_update_claim_avg_fst, Fin.sum_univ_one, C3_winner, C3_maxdist, C3_dist_0,
    C3_dist_1, C3_num]
  simp only [C3obs, C3cb, Matrix.cons_val_zero, Matrix.cons_val_one, Matrix.head_cons,
    Nat.cast_one]
  simp only [show max (4 : ℝ) 0 = 4 from max_eq_left (by norm_num)]
  rw [show (-1 : ℝ) / (4 ^ 2 * (1 / 4) ^ 2) = -1 from by norm_num]
  have hE0 : (0 : ℝ) < Real.exp (-1) := Real.exp_pos _
  have hE1 : Real.exp (-1) ≤ 1 := C3_exp_le_one (by norm_num)
  have hX : 1/9 * ((3 : ℝ)/4) * Real.exp (-1) * (1 - 4) / 1
      = -(Real.exp (-1) / 4) := by ring
  rw [hX, clip1_eq_self (by linarith) (by linarith)]
  ring

/-- C3 (code bug): on the concrete input with two 2-dimensional prototypes
(0,0), (4,0) and the single observation (1,0), the code's DSOM update
differs from the claimed formula, because the code's
neighborhood denominator uses the distance from the observation to
prototype `i` (the winner gather at line 254 indexes the expanded
axis-of-size-1 array, and JAX clamps the index to 0) instead of the
distance to the winner's prototype. -/
theorem claim_C3_denominator_divergence :
    dsom_update false 4 (1/9) C3adr C3cb C3obs 0
      ≠ dsom_update_claim false 4 (1/9) C3adr C3cb C3obs 0 := by
  intro h
  have h1 : (dsom_update false 4 (1/9) C3adr C3cb C3obs 0).1 1 0
      = (dsom_update_claim false 4 (1/9) C3adr C3cb C3obs 0).1 1 0 := by
    rw [h]
  rw [C3_code_eval, C3_claim_eval] at h1
  have h2 : Real.exp (-1) < Real.exp (-(1/9)) :=
    Real.exp_lt_exp.mpr (by norm_num)
  linarith

end

/-! ## Claim C7: monotonicity of the DSOM `max_dist` state -/

/-- C7: every DSOM update call sets `max_dist` to the maximum of its
previous value and the largest pairwise prototype-to-prototype distance of
the current codebook, so `max_dist` never decreases — neither in one call
nor across any sequence of update calls. -/
theorem claim_C7_max_dist_monotone {n d B : ℕ} (elasticity lr : ℝ)
    (addresses : Fin (n + 1) → Fin 2 → ℝ) :
    (∀ (st : (Fin (n + 1) → Fin d → ℝ) × ℝ) (obs : Fin B → Fin d → ℝ),
        (dsomStep elasticity lr addresses st obs).2
          = max (currentMaxDist st.1) st.2)
    ∧ (∀ (st : (Fin (n + 1) → Fin d → ℝ) × ℝ) (obs : Fin B → Fin d → ℝ),
        st.2 ≤ (dsomStep elasticity lr addresses st obs).2)
    ∧ (∀ (batches : List (Fin B → Fin d → ℝ))
        (st : (Fin (n + 1) → Fin d → ℝ) × ℝ),
        st.2 ≤ (batches.foldl (dsomStep elasticity lr addresses) st).2) := by
  have hstep : ∀ (st : (Fin (n + 1) → Fin d → ℝ) × ℝ) (obs : Fin B → Fin d → ℝ),
      st.2 ≤ (dsomStep elasticity lr addresses st obs).2 :=
    fun st obs => le_max_right (currentMaxDist st.1) st.2
  refine ⟨fun st obs => rfl, hstep, ?_⟩
  intro batches
  induction batches with
  | nil => intro st; simp
  | cons obs rest ih =>
      intro st
      exact le_trans (hstep st obs) (ih (dsomStep elasticity lr addresses st obs))

/-! ## Claim C6: the linear epsilon schedule -/

/-- C6: for every `start_e ≥ end_e` and `duration > 0` the linear schedule
satisfies `rate(t) = max(start_e + t * (end_e - start_e) / duration, end_e)`,
is monotonically non-increasing in `t`, and equals `end_e` exactly for every
`t ≥ duration`. -/
theorem claim_C6_linear_schedule (start_e end_e duration : ℚ)
    (he : end_e ≤ start_e) (hd : 0 < duration) :
    (∀ t, linear_schedule start_e end_e duration t
        = max (start_e + t * (end_e - start_e) / duration) end_e)
    ∧ (∀ t t', t ≤ t' →
        linear_schedule start_e end_e duration t'
          ≤ linear_schedule start_e end_e duration t)
    ∧ (∀ t, duration ≤ t → linear_schedule start_e end_e duration t = end_e) := by
  have hslope : (end_e - start_e) / duration ≤ 0 :=
    div_nonpos_of_nonpos_of_nonneg (by linarith) hd.le
  refine ⟨?_, ?_, ?_⟩
  · intro t
    show max ((end_e - start_e) / duration * t + start_e) end_e = _
    rw [show (end_e - start_e) / duration * t + start_e
          = start_e + t * (end_e - start_e) / duration by ring]
  · intro t t' htt
    show max ((end_e - start_e) / duration * t' + start_e) end_e
        ≤ max ((end_e - start_e) / duration * t + start_e) end_e
    exact max_le_max (by nlinarith) le_rfl
  · intro t ht
    show max ((end_e - start_e) / duration * t + start_e) end_e = end_e
    have hlin : (end_e - start_e) / duration * t + start_e ≤ end_e := by
      have h1 : (end_e - start_e) / duration * t
          ≤ (end_e - start_e) / duration * duration :=
        mul_le_mul_of_nonpos_left ht hslope
      have h2 : (end_e - start_e) / duration * duration = end_e - start_e := by
        field_simp
      linarith
    exact max_eq_right hlin

/-- Witness for C6 at `start_e = 1`, `end_e = 1/20`, `duration = 2`, `t = 3`. -/
theorem claim_C6_linear_schedule_witness :
    ((1/20 : ℚ) ≤ 1 ∧ (0 : ℚ) < 2) ∧ linear_schedule 1 (1/20) 2 3 = 1/20 :=
  ⟨⟨by norm_num, by norm_num⟩,
   (claim_C6_linear_schedule 1 (1/20) 2 (by norm_num) (by norm_num)).2.2 3 (by norm_num)⟩

/-! ## Claim C4: the top-k threshold arithmetic -/

/-- C4 counterexample: the claim asserts `k_abs = 128` for
`k_fraction = 0.995` and `hidden_size = 128`, but the code computes
`ceil(0.995 * 128) + 1 = ceil(127.36) + 1 = 129`. -/
theorem claim_C4_counterexample : sdm_k_abs (199/200) 128 ≠ 128 := by
  have h : sdm_k_abs (199/200) 128 = 129 := by
    unfold sdm_k_abs
    have hc : (⌈(199/200 : ℚ) * ((128 : ℕ) : ℚ)⌉ : ℤ) = 128 := by
      rw [Int.ceil_eq_iff]
      constructor <;> norm_num
    rw [hc]
    norm_num
  rw [h]
  norm_num

/-- C4 amended: the threshold is `k_abs = ceil(k_fraction * hidden_size) + 1`,
and for `k_fraction = 0.995`, `hidden_size = 128` the computed `k_abs`
equals `129` (not `128`). -/
theorem claim_C4_amended :
    (∀ (k : ℚ) (hidden_size : ℕ), sdm_k_abs k hidden_size = ⌈k * (hidden_size : ℚ)⌉ + 1)
    ∧ sdm_k_abs (199/200) 128 = 129 := by
  constructor
  · intro k hidden_size
    rfl
  · unfold sdm_k_abs
    have hc : (⌈(199/200 : ℚ) * ((128 : ℕ) : ℚ)⌉ : ℤ) = 128 := by
      rw [Int.ceil_eq_iff]
      constructor <;> norm_num
    rw [hc]
    norm_num

/-! ## Claim C8: target-network synchronization -/

/-- C8: on every sync step of the training loop the target parameters are
replaced by `tau * live + (1 - tau) * target` while the live parameters are
untouched; with `tau = 1` the new target equals the live parameters exactly,
and with `tau = 0` the target parameters are unchanged. -/
theorem claim_C8_target_sync {n : ℕ}
    (learning_starts target_network_frequency global_step : ℕ)
    (tau : ℚ) (qs : QState (Fin n → ℚ))
    (hsync : target_sync_condition learning_starts target_network_frequency global_step) :
    ((loop_target_sync learning_starts target_network_frequency global_step tau qs).params
        = qs.params
      ∧ ∀ i, (loop_target_sync learning_starts target_network_frequency global_step tau qs).target_params i
          = tau * qs.params i + (1 - tau) * qs.target_params i)
    ∧ (loop_target_sync learning_starts target_network_frequency global_step 1 qs).target_params
        = qs.params
    ∧ (loop_target_sync learning_starts target_network_frequency global_step 0 qs).target_params
        = qs.target_params := by
  unfold loop_target_sync
  rw [if_pos hsync, if_pos hsync, if_pos hsync]
  refine ⟨⟨rfl, fun i => rfl⟩, ?_, ?_⟩
  · funext i
    show 1 * qs.params i + (1 - 1) * qs.target_params i = qs.params i
    ring
  · funext i
    show 0 * qs.params i + (1 - 0) * qs.target_params i = qs.target_params i
    ring

/-- Witness for C8 at `learning_starts = 0`, frequency `500`, step `500`,
`tau = 1`, on a concrete one-tensor parameter pair. -/
theorem claim_C8_target_sync_witness :
    target_sync_condition 0 500 500
    ∧ (loop_target_sync 0 500 500 1
        (⟨fun _ => 3, fun _ => 5⟩ : QState (Fin 1 → ℚ))).target_params
      = fun _ => 3 :=
  ⟨⟨by norm_num, by norm_num⟩,
   (claim_C8_target_sync 0 500 500 1 ⟨fun _ => 3, fun _ => 5⟩
      ⟨by norm_num, by norm_num⟩).2.1⟩

/-! ## Claim C1: the periodic gradient update step -/

/-- C1: in the periodic training step, the TD target is
`y = rewards + (1 - dones) * gamma * max_a Q(target_params, next_obs)`, the
loss is the mean squared error between `y` and `Q(live_params, obs)` indexed
at the stored actions, and the one optimizer step is applied to the live
parameters while the target parameters come out unchanged. -/
theorem claim_C1_update_step {P O G : Type} {B a : ℕ} (gamma : ℚ)
    (applyFn : P → O → Fin B → Fin (a + 1) → ℚ)
    (gradFn : (P → ℚ) → P → G) (applyGrads : P → G → P)
    (preU postU : P → P)
    (qs : QState P) (observations next_observations : O)
    (actions : Fin B → Fin (a + 1)) (rewards dones : Fin B → ℚ) :
    (update gamma applyFn gradFn applyGrads preU postU qs observations
        next_observations actions rewards dones).1
      = mseMean (fun b => applyFn (preU qs.params) observations b (actions b))
          (fun b => tdTarget gamma (rewards b) (dones b)
            (vmax (applyFn qs.target_params next_observations b)))
    ∧ (update gamma applyFn gradFn applyGrads preU postU qs observations
        next_observations actions rewards dones).2.2.target_params
      = qs.target_params
    ∧ (update gamma applyFn gradFn applyGrads preU postU qs observations
        next_observations actions rewards dones).2.2.params
      = postU (applyGrads (preU qs.params)
          (gradFn
            (fun p => mseMean (fun b => applyFn p observations b (actions b))
              (fun b => tdTarget gamma (rewards b) (dones b)
                (vmax (applyFn qs.target_params next_observations b))))
            (preU qs.params))) :=
  ⟨rfl, rfl, rfl⟩

/-! ## Claim C5: SDM top-k sparsification

Helper facts about the subtract-the-threshold-and-clip map and about
counting elements above a pivot of a strictly sorted list. -/

lemma sparsify_ne_zero_iff (m x : ℚ) : max (x - m) 0 ≠ 0 ↔ m < x := by
  constructor
  · intro hne
    by_contra hle
    push_neg at hle
    exact hne (max_eq_right (by linarith))
  · intro hlt
    rw [max_eq_left (by linarith)]
    exact ne_of_gt (by linarith)

lemma getD_map_of_lt (f : ℚ → ℚ) (l : List ℚ) (i : ℕ) (h : i < l.length) :
    (l.map f).getD i 0 = f (l.getD i 0) := by
  rw [List.getD_eq_getElem (l.map f) 0 (by simpa using h),
    List.getD_eq_getElem l 0 h, List.getElem_map]

/-- In a strictly sorted list, the number of elements above the entry at
index `idx` is the number of positions after `idx`. -/
lemma countP_gt_of_sorted :
    ∀ (s : List ℚ), s.Pairwise (· < ·) → ∀ (idx : ℕ), idx < s.length →
      s.countP (fun x => decide (s.getD idx 0 < x)) = s.length - idx - 1 := by
  intro s
  induction s with
  | nil =>
      intro _ idx hidx
      simp at hidx
  | cons a t ih =>
      intro hs idx hidx
      have hta : ∀ x ∈ t, a < x := (List.pairwise_cons.mp hs).1
      have hts : t.Pairwise (· < ·) := (List.pairwise_cons.mp hs).2
      cases idx with
      | zero =>
          rw [List.getD_cons_zero, List.countP_cons]
          have hall : t.countP (fun x => decide (a < x)) = t.length :=
            List.countP_eq_length.mpr (fun x hx => by simpa using hta x hx)
          have hcond : ¬(decide (a < a) = true) := by simp
          rw [if_neg hcond, hall]
          simp only [List.length_cons]
          omega
      | succ j =>
          have hj : j < t.length := by simpa using hidx
          rw [List.getD_cons_succ, List.countP_cons]
          have hmem : t.getD j 0 ∈ t := by
            rw [List.getD_eq_getElem t 0 hj]
            exact List.getElem_mem hj
          have hcond : ¬(decide (t.getD j 0 < a) = true) := by
            simp only [decide_eq_true_eq, not_lt]
            exact le_of_lt (hta _ hmem)
          rw [if_neg hcond, ih hts j hj]
          simp only [List.length_cons]
          omega

/-- C5 counterexample: for the activations `[3, 2, 1]` (pairwise distinct)
and `k_abs = 2` within range, subtracting the 2nd-largest activation and
clipping at zero leaves exactly one nonzero activation, not the two the
claim asserts. -/
theorem claim_C5_counterexample :
    sdm_sparsify 2 [3, 2, 1] = [1, 0, 0]
    ∧ ([3, 2, 1] : List ℚ).Nodup
    ∧ (sdm_sparsify 2 [3, 2, 1]).countP (fun x => decide (x ≠ 0)) ≠ 2 := by
  have hs : (([3, 2, 1] : List ℚ).insertionSort (· ≤ ·)) = [1, 2, 3] := by decide
  have h1 : sdm_sparsify 2 [3, 2, 1] = [1, 0, 0] := by
    simp only [sdm_sparsify]
    rw [hs]
    norm_num [List.getD]
  refine ⟨h1, by decide, ?_⟩
  rw [h1]
  decide

/-- C5 amended: the SDM forward read subtracts the `k_abs`-th largest
activation of the sample from all activations and clips at zero; assuming
pairwise-distinct activations and `1 ≤ k_abs ≤ n`, this retains nonzero
exactly the top `k_abs - 1` activations (not `k_abs`), and preserves the
relative ordering of the retained winners. -/
theorem claim_C5_amended (l : List ℚ) (kAbs : ℕ)
    (hnd : l.Nodup) (hk1 : 1 ≤ kAbs) (hkl : kAbs ≤ l.length) :
    (sdm_sparsify kAbs l).countP (fun x => decide (x ≠ 0)) = kAbs - 1
    ∧ (∀ i j, i < l.length → j < l.length →
        (sdm_sparsify kAbs l).getD i 0 ≠ 0 → l.getD i 0 < l.getD j 0 →
        (sdm_sparsify kAbs l).getD j 0 ≠ 0)
    ∧ (∀ i j, i < l.length → j < l.length →
        (sdm_sparsify kAbs l).getD i 0 ≠ 0 → (sdm_sparsify kAbs l).getD j 0 ≠ 0 →
        ((sdm_sparsify kAbs l).getD i 0 < (sdm_sparsify kAbs l).getD j 0
          ↔ l.getD i 0 < l.getD j 0)) := by
  set s := l.insertionSort (· ≤ ·) with hs_def
  set m := s.getD (l.length - kAbs) 0 with hm_def
  have hperm : s.Perm l := List.perm_insertionSort _ l
  have hlen : s.length = l.length := hperm.length_eq
  have hsorted : s.Sorted (· ≤ ·) := List.sorted_insertionSort _ l
  have hndS : s.Nodup := hperm.nodup_iff.mpr hnd
  have hstrict : s.Pairwise (· < ·) :=
    (hsorted.and hndS).imp (fun h => lt_of_le_of_ne h.1 h.2)
  have hout : sdm_sparsify kAbs l = l.map (fun x => max (x - m) 0) := rfl
  refine ⟨?_, ?_, ?_⟩
  · rw [hout, List.countP_map]
    have h1 : ((fun x => decide (x ≠ 0)) ∘ (fun x => max (x - m) 0))
        = fun x => decide (m < x) := by
      funext x
      simp only [Function.comp]
      by_cases h : m < x
      · simp [h, (sparsify_ne_zero_iff m x).mpr h]
      · have hzero : max (x - m) 0 = 0 := by
          push_neg at h
          exact max_eq_right (by linarith)
        simp [h, hzero]
    rw [h1, (hperm.countP_eq _).symm]
    have hidx : l.length - kAbs < s.length := by omega
    have hcnt := countP_gt_of_sorted s hstrict (l.length - kAbs) hidx
    rw [hcnt]
    omega
  · intro i j hi hj hne hlt
    rw [hout, getD_map_of_lt _ _ _ hj]
    rw [hout, getD_map_of_lt _ _ _ hi] at hne
    have hmi : m < l.getD i 0 := (sparsify_ne_zero_iff _ _).mp hne
    exact (sparsify_ne_zero_iff _ _).mpr (lt_trans hmi hlt)
  · intro i j hi hj hnei hnej
    rw [hout, getD_map_of_lt _ _ _ hi] at hnei
    rw [hout, getD_map_of_lt _ _ _ hj] at hnej
    rw [hout, getD_map_of_lt _ _ _ hi, getD_map_of_lt _ _ _ hj]
    have hmi : m < l.getD i 0 := (sparsify_ne_zero_iff _ _).mp hnei
    have hmj : m < l.getD j 0 := (sparsify_ne_zero_iff _ _).mp hnej
    rw [max_eq_left (by linarith), max_eq_left (by linarith)]
    constructor
    · intro h
      linarith
    · intro h
      linarith

/-- Witness for C5 amended at `l = [3, 1, 2]`, `k_abs = 2`: exactly
`2 - 1 = 1` activation survives. -/
theorem claim_C5_amended_witness :
    (([3, 1, 2] : List ℚ).Nodup ∧ 1 ≤ 2 ∧ 2 ≤ ([3, 1, 2] : List ℚ).length)
    ∧ (sdm_sparsify 2 [3, 1, 2]).countP (fun x => decide (x ≠ 0)) = 2 - 1 :=
  ⟨⟨by decide, by norm_num, by decide⟩,
   (claim_C5_amended [3, 1, 2] 2 (by decide) (by norm_num) (by decide)).1⟩

/-! ## Claim C10: unsupported configuration tags fail fast -/

/-- C10: an unsupported epsilon-scheduler tag raises at the dispatch, an
unsupported architecture tag leaves `q_network` unassigned so that the very
next use raises `UnboundLocalError`, and an unsupported DSOM reduction mode
raises inside the update; none of the three produces a value, so nothing
silently falls back to a default. -/
theorem claim_C10_config_errors {D : Type}
    (tagE tagA mode : String) (linear_eps exponential_eps : ℚ) (avg_delta sum_delta : D)
    (hE1 : tagE ≠ "LINEAR") (hE2 : tagE ≠ "EXPONENTIAL")
    (hA1 : tagA ≠ "BASELINE") (hA2 : tagA ≠ "DSOM") (hA3 : tagA ≠ "SDM")
    (hM1 : mode ≠ "avg") (hM2 : mode ≠ "sum") :
    selectEpsilon tagE linear_eps exponential_eps = Except.error PyErr.exception
    ∧ selectArchitecture tagA = none
    ∧ createTrainState (selectArchitecture tagA) = Except.error PyErr.unboundLocal
    ∧ dsomCollapse mode avg_delta sum_delta = Except.error PyErr.invalidUpdateMode := by
  have hsel : selectArchitecture tagA = none := by
    unfold selectArchitecture
    rw [if_neg hA1, if_neg hA2, if_neg hA3]
  refine ⟨?_, hsel, ?_, ?_⟩
  · unfold selectEpsilon
    rw [if_neg hE1, if_neg hE2]
  · rw [hsel]
    rfl
  · unfold dsomCollapse
    rw [if_neg hM1, if_neg hM2]

/-- Witness for C10 with the concrete unsupported tag `"FOO"` used for all
three configuration surfaces. -/
theorem claim_C10_config_errors_witness :
    (("FOO" : String) ≠ "LINEAR" ∧ ("FOO" : String) ≠ "avg")
    ∧ selectEpsilon "FOO" 0 0 = Except.error PyErr.exception
    ∧ createTrainState (selectArchitecture "FOO") = Except.error PyErr.unboundLocal
    ∧ dsomCollapse "FOO" (0 : ℚ) 1 = Except.error PyErr.invalidUpdateMode :=
  ⟨⟨by decide, by decide⟩,
   (claim_C10_config_errors "FOO" "FOO" "FOO" 0 0 (0 : ℚ) 1 (by decide) (by decide)
      (by decide) (by decide) (by decide) (by decide) (by decide)).1,
   (claim_C10_config_errors "FOO" "FOO" "FOO" 0 0 (0 : ℚ) 1 (by decide) (by decide)
      (by decide) (by decide) (by decide) (by decide) (by decide)).2.2.1,
   (claim_C10_config_errors "FOO" "FOO" "FOO" 0 0 (0 : ℚ) 1 (by decide) (by decide)
      (by decide) (by decide) (by decide) (by decide) (by decide)).2.2.2⟩

end SdmRL
